import Mathlib

/-!
Verification of the h26x-extractor repository: a shallow embedding of the
emulation-prevention-byte (EPB) codec, the Annex-B stream transformer, the
bit-reader operations, the CAVLC table scanners and the macroblock helpers,
together with theorems settling the specification claims about them.

Bytes are modelled as natural numbers, byte sequences as `List Nat`, and the
bit reader as a list of booleans with a cursor position.  Fallible operations
return `Except PErr` values; exceptions raised by the Python code (bitstring
read errors, `ValueError`, `NotImplementedError`) are mapped onto the error
kinds that the specification names (`Truncated`, `CavlcUnknownCode`,
`Unsupported`), plus a generic `valueError` for a `ValueError` raised outside
that taxonomy (e.g. a failed tuple unpacking).
-/

/-- Error kinds surfaced by the embedded operations, following the
specification's error taxonomy (section 7). -/
inductive PErr where
  | truncated
  | cavlcUnknownCode
  | unsupported
  | valueError
  deriving DecidableEq, Repr

deriving instance DecidableEq for Except

/-- Emulation-prevention encoding, embedding the byte-scanning loop of
`nalu_encode` in `src/crypt/utils.py` (lines 31-46): while at least three
bytes remain at the cursor (`i + 2 < i_max`), a window `00 00 xx` with
`xx < 4` emits `00 00 03 xx` and the scan resumes after the `xx` byte
(`i += 2` then `i += 1`); otherwise one byte is copied and the scan advances
by one. -/
def nalu_encode : List Nat → List Nat
  | [] => []
  | [a] => [a]
  | [a, b] => [a, b]
  | a :: b :: c :: rest =>
    if a = 0 ∧ b = 0 ∧ c < 4 then 0 :: 0 :: 3 :: c :: nalu_encode rest
    else a :: nalu_encode (b :: c :: rest)

/-- Emulation-prevention decoding, embedding the byte-scanning loop of
`nalu_decode` in `src/crypt/utils.py` (lines 11-23): while at least three
bytes remain at the cursor, a window `00 00 03` emits the two zeros and skips
the `03` (`i += 2` then `i += 1`); otherwise one byte is copied. -/
def nalu_decode : List Nat → List Nat
  | [] => []
  | [a] => [a]
  | [a, b] => [a, b]
  | a :: b :: c :: rest =>
    if a = 0 ∧ b = 0 ∧ c = 3 then a :: b :: nalu_decode rest
    else a :: nalu_decode (b :: c :: rest)

/-- Whether the byte list contains three consecutive bytes satisfying `f`,
scanning every position (the `bytes.find` style containment the repository's
`test_nalu_encode` applies to encoder output). -/
def hasTriple (f : Nat → Nat → Nat → Bool) : List Nat → Bool
  | a :: b :: c :: rest => f a b c || hasTriple f (b :: c :: rest)
  | _ => false

/-- One of the four byte triples `00 00 00`, `00 00 01`, `00 00 02`,
`00 00 03` that claim C8 says never occur in `nalu_encode` output. -/
def isEpbTriple (a b c : Nat) : Bool := a == 0 && b == 0 && c < 4

/-- One of the three triples `00 00 00`, `00 00 01`, `00 00 02` (the patterns
emulation prevention exists to avoid, and the ones the repository's own
`test_nalu_encode` checks for). -/
def isStartLike (a b c : Nat) : Bool := a == 0 && b == 0 && c < 3

/-- Three consecutive zero bytes. -/
def isTripleZero (a b c : Nat) : Bool := a == 0 && b == 0 && c == 0

theorem hasTriple_nil (f : Nat → Nat → Nat → Bool) : hasTriple f [] = false := rfl

theorem hasTriple_one (f : Nat → Nat → Nat → Bool) (a : Nat) :
    hasTriple f [a] = false := rfl

theorem hasTriple_two (f : Nat → Nat → Nat → Bool) (a b : Nat) :
    hasTriple f [a, b] = false := rfl

theorem hasTriple_cons3 (f : Nat → Nat → Nat → Bool) (a b c : Nat) (l : List Nat) :
    hasTriple f (a :: b :: c :: l) = (f a b c || hasTriple f (b :: c :: l)) := rfl

theorem hasTriple_tail (f : Nat → Nat → Nat → Bool) (a : Nat) (l : List Nat)
    (h : hasTriple f (a :: l) = false) : hasTriple f l = false := by
  rcases l with _ | ⟨b, _ | ⟨c, t⟩⟩
  · rfl
  · rfl
  · rw [hasTriple_cons3] at h
    exact (Bool.or_eq_false_iff.mp h).2

theorem isStartLike_head_ne (a b c : Nat) (h : a ≠ 0) : isStartLike a b c = false := by
  simp [isStartLike, h]

theorem isStartLike_mid_ne (a b c : Nat) (h : b ≠ 0) : isStartLike a b c = false := by
  simp [isStartLike, h]

theorem hasTriple_start_cons (a : Nat) (l : List Nat) (h : a ≠ 0) :
    hasTriple isStartLike (a :: l) = hasTriple isStartLike l := by
  rcases l with _ | ⟨b, _ | ⟨c, t⟩⟩
  · rfl
  · rfl
  · rw [hasTriple_cons3, isStartLike_head_ne a b c h, Bool.false_or]

theorem hasTriple_start_cons2 (a b : Nat) (l : List Nat) (h : b ≠ 0) :
    hasTriple isStartLike (a :: b :: l) = hasTriple isStartLike (b :: l) := by
  rcases l with _ | ⟨c, t⟩
  · rfl
  · rw [hasTriple_cons3, isStartLike_mid_ne a b c h, Bool.false_or]

theorem nalu_encode_cons_ne (b : Nat) (l : List Nat) (h : b ≠ 0) :
    nalu_encode (b :: l) = b :: nalu_encode l := by
  rcases l with _ | ⟨x, _ | ⟨y, t⟩⟩
  · rfl
  · rfl
  · rw [nalu_encode, if_neg]
    intro hcon
    exact h hcon.1

theorem nalu_encode_cons_pair (c : Nat) (t : List Nat) (h : c ≠ 0) :
    nalu_encode (0 :: c :: t) = 0 :: nalu_encode (c :: t) := by
  rcases t with _ | ⟨r, rs⟩
  · rfl
  · rw [nalu_encode, if_neg]
    intro hcon
    exact h hcon.2.1

theorem isTripleZero_false_third (a b c : Nat) (l : List Nat)
    (h : hasTriple isTripleZero (a :: b :: c :: l) = false) (ha : a = 0) (hb : b = 0) :
    c ≠ 0 := by
  intro hc
  subst ha; subst hb; subst hc
  rw [hasTriple_cons3] at h
  have := (Bool.or_eq_false_iff.mp h).1
  simp [isTripleZero] at this

/-- Helper induction (on an explicit length bound) for the amended claim C8:
if the input contains no three consecutive zero bytes, the encoder output
contains none of `00 00 00`, `00 00 01`, `00 00 02`. -/
theorem nalu_encode_no_start_like_aux :
    ∀ (n : Nat) (x : List Nat), x.length ≤ n → hasTriple isTripleZero x = false →
      hasTriple isStartLike (nalu_encode x) = false := by
  intro n
  induction n with
  | zero =>
    intro x hx _
    have : x = [] := List.length_eq_zero.mp (Nat.le_zero.mp hx)
    subst this
    rfl
  | succ n ih =>
    intro x hx h0
    rcases x with _ | ⟨a, _ | ⟨b, _ | ⟨c, rest⟩⟩⟩
    · rfl
    · rfl
    · rfl
    · simp only [List.length_cons] at hx
      by_cases hp : a = 0 ∧ b = 0 ∧ c < 4
      · obtain ⟨ha, hb, hc4⟩ := hp
        have hc0 : c ≠ 0 := isTripleZero_false_third a b c rest h0 ha hb
        subst ha; subst hb
        rw [nalu_encode, if_pos ⟨rfl, rfl, hc4⟩]
        rw [hasTriple_cons3, hasTriple_cons3]
        have h003 : isStartLike 0 0 3 = false := by decide
        have h03c : isStartLike 0 3 c = false := isStartLike_mid_ne 0 3 c (by decide)
        rw [h003, h03c, Bool.false_or, Bool.false_or]
        rw [hasTriple_start_cons 3 _ (by decide), hasTriple_start_cons c _ hc0]
        exact ih rest (by omega)
          (hasTriple_tail _ _ _ (hasTriple_tail _ _ _ (hasTriple_tail _ _ _ h0)))
      · rw [nalu_encode, if_neg hp]
        by_cases ha : a = 0
        · subst ha
          by_cases hb : b = 0
          · subst hb
            have hc4 : ¬ c < 4 := by
              intro hc
              exact hp ⟨rfl, rfl, hc⟩
            have hc0 : c ≠ 0 := by omega
            rw [nalu_encode_cons_pair c rest hc0, nalu_encode_cons_ne c rest hc0]
            rw [hasTriple_cons3]
            have h00c : isStartLike 0 0 c = false := by
              simp [isStartLike]
              omega
            rw [h00c, Bool.false_or]
            rw [hasTriple_start_cons2 0 c _ hc0, hasTriple_start_cons c _ hc0]
            exact ih rest (by omega)
              (hasTriple_tail _ _ _ (hasTriple_tail _ _ _ (hasTriple_tail _ _ _ h0)))
          · rw [nalu_encode_cons_ne b (c :: rest) hb]
            rw [hasTriple_start_cons2 0 b _ hb, hasTriple_start_cons b _ hb]
            exact ih (c :: rest) (by simp; omega)
              (hasTriple_tail _ _ _ (hasTriple_tail _ _ _ h0))
        · rw [hasTriple_start_cons a _ ha]
          exact ih (b :: c :: rest) (by simp; omega) (hasTriple_tail _ _ _ h0)

/-- C1: the claimed round-trip `nalu_decode (nalu_encode x) = x` fails on the
concrete input `[0, 0, 0, 0, 3]`: the encoder's scan skips the escaped byte,
so the inserted-`03` window `00 00 03` it creates at offset 3 of the output
`[0, 0, 3, 0, 0, 3]` is indistinguishable from an insertion, and decoding
drops the final data byte, yielding `[0, 0, 0, 0]`. -/
theorem C1_roundtrip_fails :
    nalu_decode (nalu_encode [0, 0, 0, 0, 3]) = [0, 0, 0, 0] ∧
      nalu_decode (nalu_encode [0, 0, 0, 0, 3]) ≠ [0, 0, 0, 0, 3] := by
  constructor
  · rfl
  · decide

/-- C8 counterexample: for the input `[0, 0, 0, 0, 1]` the encoder output is
`[0, 0, 3, 0, 0, 1]`, which contains the forbidden triple `00 00 03` at
offset 0 (inserted by design) and the forbidden triple `00 00 01` at offset 3
(the encoder's scan skipped the pair straddling the escaped byte), so the
claim that `nalu_encode x` never contains `00 00 00/01/02/03` is false. -/
theorem C8_counterexample :
    nalu_encode [0, 0, 0, 0, 1] = [0, 0, 3, 0, 0, 1] ∧
      hasTriple isEpbTriple (nalu_encode [0, 0, 0, 0, 1]) = true ∧
      hasTriple isStartLike (nalu_encode [0, 0, 0, 0, 1]) = true := by
  refine ⟨rfl, ?_, ?_⟩ <;> decide

/-- C8 (amended): for every byte sequence `x` that contains no three
consecutive zero bytes, `nalu_encode x` contains no occurrence of
`00 00 00`, `00 00 01` or `00 00 02`.  (The triple `00 00 03` is produced by
every insertion, and inputs with three consecutive zeros can defeat the
encoder's scan, as `C8_counterexample` shows.) -/
theorem C8_encode_no_start_like (x : List Nat)
    (h : hasTriple isTripleZero x = false) :
    hasTriple isStartLike (nalu_encode x) = false :=
  nalu_encode_no_start_like_aux x.length x le_rfl h

/-- Witness for `C8_encode_no_start_like` at the concrete input `[0, 0, 1]`
(encoded to `[0, 0, 3, 1]`). -/
theorem C8_encode_no_start_like_witness :
    hasTriple isTripleZero [0, 0, 1] = false ∧
      hasTriple isStartLike (nalu_encode [0, 0, 1]) = false :=
  ⟨by decide, C8_encode_no_start_like [0, 0, 1] (by decide)⟩

/-- A `bitstring.BitStream`: an immutable bit payload plus a cursor in
`[0, len]`.  Reads advance `pos`; reading past the end fails (`Truncated`,
bitstring's `ReadError`). -/
structure BStream where
  data : List Bool
  pos : Nat
  deriving DecidableEq, Repr

/-- Read one bit (`stream.read('uint:1')` / `stream.read(1).uint`): returns
the bit at the cursor and advances by one, or fails with `truncated` when the
cursor is at end-of-buffer. -/
def readBit (s : BStream) : Except PErr (Nat × BStream) :=
  if s.pos < s.data.length then
    .ok ((if s.data.getD s.pos false then 1 else 0), ⟨s.data, s.pos + 1⟩)
  else .error .truncated

/-- Leading-zero scan of bitstring's `ue` read: consume zero bits until the
terminating `1` bit (inclusive) and return the count of zeros; reaching
end-of-buffer fails.  `fuel` bounds the scan by the remaining length. -/
def ueLeadingZeros : Nat → BStream → Except PErr (Nat × BStream)
  | 0, _ => .error .truncated
  | fuel + 1, s =>
    match readBit s with
    | .error e => .error e
    | .ok (b, s') =>
      if b = 1 then .ok (0, s')
      else
        match ueLeadingZeros fuel s' with
        | .error e => .error e
        | .ok (k, s'') => .ok (k + 1, s'')

/-- Accumulator for a big-endian fixed-width unsigned read. -/
def readBitsValAux : Nat → Nat → BStream → Except PErr (Nat × BStream)
  | 0, acc, s => .ok (acc, s)
  | n + 1, acc, s =>
    match readBit s with
    | .error e => .error e
    | .ok (b, s') => readBitsValAux n (acc * 2 + b) s'

/-- `u(n)`: read `n` bits as a big-endian (MSB-first) unsigned integer. -/
def readBitsVal (n : Nat) (s : BStream) : Except PErr (Nat × BStream) :=
  readBitsValAux n 0 s

/-- `ue()` (unsigned Exp-Golomb, bitstring's `read("ue")`): count leading
zero bits `k`, consume the terminating `1`, read `k` more bits as `tail`;
the value is `2^k - 1 + tail`. -/
def ue (s : BStream) : Except PErr (Nat × BStream) :=
  match ueLeadingZeros (s.data.length - s.pos + 1) s with
  | .error e => .error e
  | .ok (k, s') =>
    match readBitsVal k s' with
    | .error e => .error e
    | .ok (v, s'') => .ok (2 ^ k - 1 + v, s'')

/-- The source's `te` methods (`NALU.te`, nalutypes.py lines 173-179, and
`MacroBlock.te`, macroblock.py lines 423-429) test `elif range == 1:`, which
compares the Python *builtin* `range` (a function object) with the integer 1.
That comparison is always false, whatever the `value_range` argument is. -/
def pyRangeEqOne : Bool := false

/-- `te(value_range)`, embedding `NALU.te` (nalutypes.py lines 173-179):
`value_range <= 0` returns 0 without reading; the `range == 1` branch (one
inverted bit) is dead because of `pyRangeEqOne`; every other call falls
through to `ue()`. -/
def te (valueRange : Int) (s : BStream) : Except PErr (Nat × BStream) :=
  if valueRange ≤ 0 then .ok (0, s)
  else if pyRangeEqOne then
    match readBit s with
    | .error e => .error e
    | .ok (b, s') => .ok ((if b = 0 then 1 else 0), s')
  else ue s

/-- Index of the last `1` bit in the whole payload, embedding
`BitStream(s).rfind(Bits('0b1'))`: `none` when the payload has no `1` bit
(bitstring returns an empty tuple). -/
def rfindOne : List Bool → Option Nat
  | [] => none
  | b :: rest =>
    match rfindOne rest with
    | some i => some (i + 1)
    | none => if b then some 0 else none

/-- `more_rbsp_data(s)`, embedding nalu_utils.py lines 5-12.  The search runs
on `BitStream(s)`, a fresh copy, so the argument stream is returned unchanged
on every path.  When the stream holds no `1` bit at all, the source unpacks
the empty tuple returned by `rfind` (`last_one_pos, = ...`), which raises a
`ValueError` before the dead `last_one_pos is None` test is reached. -/
def more_rbsp_data (s : BStream) : Except PErr Bool × BStream :=
  if s.pos ≥ s.data.length then (.ok false, s)
  else
    match rfindOne s.data with
    | none => (.error .valueError, s)
    | some p => if s.pos ≥ p then (.ok false, s) else (.ok true, s)

/-- C5: `te` called with range argument 1 does not read one inverted bit; it
falls through to `ue()` because the source compares the builtin `range` with
1.  On the bit input `011` it consumes three bits and returns the Exp-Golomb
value 2, where the claim requires it to consume the single bit `0` and
return 1. -/
theorem C5_te_eval :
    te 1 ⟨[false, true, true], 0⟩ = .ok (2, ⟨[false, true, true], 3⟩) ∧
      te 1 ⟨[false, true, true], 0⟩ ≠ .ok (1, ⟨[false, true, true], 1⟩) := by
  refine ⟨rfl, ?_⟩
  intro h
  rw [show te 1 ⟨[false, true, true], 0⟩ =
    .ok (2, (⟨[false, true, true], 3⟩ : BStream)) from rfl] at h
  have h2 := Except.ok.inj h
  simp at h2

/-- C6: on a stream whose remaining bits are all zero (here a single zero
byte with the cursor at 0), `more_rbsp_data` does not return `false` as the
claim states: `rfind` finds no `1` bit, and unpacking its empty result raises
a `ValueError`. -/
theorem C6_more_rbsp_data_allzero_fails :
    more_rbsp_data ⟨List.replicate 8 false, 0⟩ =
      (.error .valueError, ⟨List.replicate 8 false, 0⟩) ∧
      (more_rbsp_data ⟨List.replicate 8 false, 0⟩).1 ≠ .ok false := by
  refine ⟨rfl, ?_⟩
  intro h
  rw [show (more_rbsp_data ⟨List.replicate 8 false, 0⟩).1 =
    (Except.error PErr.valueError : Except PErr Bool) from rfl] at h
  exact Except.noConfusion h

/-- C10: `more_rbsp_data` never moves the bit cursor: whatever it returns
(true, false, or the all-zero failure), the stream coming out equals the
stream going in, because the source only searches a copy (`BitStream(s)`). -/
theorem C10_more_rbsp_data_preserves_pos (s : BStream) :
    (more_rbsp_data s).2 = s := by
  unfold more_rbsp_data
  split
  · rfl
  · split
    · rfl
    · split <;> rfl

/-- The common decoding loop of `coeff_token`, `parse_total_zeros` and
`parse_run_before` (cavlc.py): with `fuel` iterations remaining (the Python
loop `while curr_len <= max_len` runs `max_len + 1` times), read one bit,
extend `currVal`, and look the pair `(curr_len, curr_val)` up in the table;
a hit returns it with the cursor after the code; when the iterations are
exhausted the cursor is restored to `entryPos` and the scan fails with
`cavlcUnknownCode` (the Python `ValueError`); a failed bit read propagates
with the cursor wherever the successful reads left it. -/
def vlcLoop {α : Type} (table : List ((Nat × Nat) × α)) (entryPos : Nat) :
    Nat → Nat → Nat → BStream → Except PErr α × BStream
  | 0, _, _, s => (.error .cavlcUnknownCode, ⟨s.data, entryPos⟩)
  | fuel + 1, currLen, currVal, s =>
    match readBit s with
    | .error e => (.error e, s)
    | .ok (b, s') =>
      let v := currVal * 2 + b
      match table.lookup (currLen + 1, v) with
      | some a => (.ok a, s')
      | none => vlcLoop table entryPos fuel (currLen + 1) v s'

/-- Entry point of the common loop: save the entry position, start with
`curr_len = 0, curr_val = 0`, and allow `maxLen + 1` reads. -/
def vlcScan {α : Type} (table : List ((Nat × Nat) × α)) (maxLen : Nat) (s : BStream) :
    Except PErr α × BStream :=
  vlcLoop table s.pos (maxLen + 1) 0 0 s

/-- `CoeffTokenTableLength_0_2` from cavlc.py (code lengths of Table 9-5 for
`0 <= nC < 2`; row = TrailingOnes, column = TotalCoeff, 0 = unused). -/
def CoeffTokenTableLength_0_2 : List (List Nat) :=
  [[1, 6, 8, 9, 10, 11, 13, 13, 13, 14, 14, 15, 15, 16, 16, 16, 16],
   [0, 2, 6, 8, 9, 10, 11, 13, 13, 14, 14, 15, 15, 15, 16, 16, 16],
   [0, 0, 3, 7, 8, 9, 10, 11, 13, 13, 14, 14, 15, 15, 16, 16, 16],
   [0, 0, 0, 5, 6, 7, 8, 9, 10, 11, 13, 14, 14, 15, 15, 16, 16]]

/-- `CoeffTokenTableCode_0_2` from cavlc.py (code values matching
`CoeffTokenTableLength_0_2`). -/
def CoeffTokenTableCode_0_2 : List (List Nat) :=
  [[1, 5, 7, 7, 7, 7, 15, 11, 8, 15, 11, 15, 11, 15, 11, 7, 4],
   [0, 1, 4, 6, 6, 6, 6, 14, 10, 14, 10, 14, 10, 1, 14, 10, 6],
   [0, 0, 1, 5, 5, 5, 5, 5, 13, 9, 13, 9, 13, 9, 13, 9, 5],
   [0, 0, 0, 3, 3, 4, 4, 4, 4, 4, 12, 12, 8, 12, 8, 12, 8]]

/-- `CoeffTokenTableLength_2_4` from cavlc.py. -/
def CoeffTokenTableLength_2_4 : List (List Nat) :=
  [[2, 6, 6, 7, 8, 8, 9, 11, 11, 12, 12, 12, 13, 13, 13, 14, 14],
   [0, 2, 5, 6, 6, 7, 8, 9, 11, 11, 12, 12, 13, 13, 14, 14, 14],
   [0, 0, 3, 6, 6, 7, 8, 9, 11, 11, 12, 12, 13, 13, 13, 14, 14],
   [0, 0, 0, 4, 4, 5, 6, 6, 7, 9, 11, 11, 12, 13, 13, 13, 14]]

/-- `CoeffTokenTableCode_2_4` from cavlc.py. -/
def CoeffTokenTableCode_2_4 : List (List Nat) :=
  [[3, 11, 7, 7, 7, 4, 7, 15, 11, 15, 11, 8, 15, 11, 7, 9, 7],
   [0, 2, 7, 10, 6, 6, 6, 6, 14, 10, 14, 10, 14, 10, 11, 8, 6],
   [0, 0, 3, 9, 5, 5, 5, 5, 13, 9, 13, 9, 13, 9, 6, 10, 5],
   [0, 0, 0, 5, 4, 6, 8, 4, 4, 4, 12, 8, 12, 12, 8, 1, 4]]

/-- `CoeffTokenTableLength_4_8` from cavlc.py. -/
def CoeffTokenTableLength_4_8 : List (List Nat) :=
  [[4, 6, 6, 6, 7, 7, 7, 7, 8, 8, 9, 9, 9, 10, 10, 10, 10],
   [0, 4, 5, 5, 5, 5, 6, 6, 7, 8, 8, 9, 9, 9, 10, 10, 10],
   [0, 0, 4, 5, 5, 5, 6, 6, 7, 7, 8, 8, 9, 9, 10, 10, 10],
   [0, 0, 0, 4, 4, 4, 4, 4, 5, 6, 7, 8, 8, 9, 10, 10, 10]]

/-- `CoeffTokenTableCode_4_8` from cavlc.py. -/
def CoeffTokenTableCode_4_8 : List (List Nat) :=
  [[15, 15, 11, 8, 15, 11, 9, 8, 15, 11, 15, 11, 8, 13, 9, 5, 1],
   [0, 14, 15, 12, 10, 8, 14, 10, 14, 14, 10, 14, 10, 7, 12, 8, 4],
   [0, 0, 13, 14, 11, 9, 13, 9, 13, 10, 13, 9, 13, 9, 11, 7, 3],
   [0, 0, 0, 12, 11, 10, 9, 8, 13, 12, 12, 12, 8, 12, 10, 6, 2]]

/-- Turn a (length, code) array pair into the `(len, code) -> (TotalCoeff,
TrailingOnes)` dictionary the live `coeff_token` loads from its table file
(zero lengths mark unused cells). -/
def buildCoeffTable (lens codes : List (List Nat)) : List ((Nat × Nat) × (Nat × Nat)) :=
  (((lens.zip codes).enum).map (fun yrow =>
    (((yrow.2.1.zip yrow.2.2).enum).filterMap (fun xe =>
      if xe.2.1 = 0 then none
      else some ((xe.2.1, xe.2.2), (xe.1, yrow.1)))))).flatten

/-- The `0 <= nC < 2` coeff_token dictionary.  Modelled from the spec: the
live table is read from `coeff_token.txt`, absent from src; the spec states
the tables are equivalent to the standard's Table 9-5, whose `0 <= nC < 2`
column is present in src as `CoeffTokenTableLength_0_2` /
`CoeffTokenTableCode_0_2`. -/
def coeffTokenTable_0_2 : List ((Nat × Nat) × (Nat × Nat)) :=
  buildCoeffTable CoeffTokenTableLength_0_2 CoeffTokenTableCode_0_2

/-- The `2 <= nC < 4` coeff_token dictionary (see `coeffTokenTable_0_2`). -/
def coeffTokenTable_2_4 : List ((Nat × Nat) × (Nat × Nat)) :=
  buildCoeffTable CoeffTokenTableLength_2_4 CoeffTokenTableCode_2_4

/-- The `4 <= nC < 8` coeff_token dictionary (see `coeffTokenTable_0_2`). -/
def coeffTokenTable_4_8 : List ((Nat × Nat) × (Nat × Nat)) :=
  buildCoeffTable CoeffTokenTableLength_4_8 CoeffTokenTableCode_4_8

/-- The `nC >= 8` coeff_token dictionary.  Modelled from the spec: all codes
are 6-bit fixed-length; values 3, 0, 1 map to (0,0), (1,0), (1,1), and the
remaining assigned codes are `4*(TotalCoeff-1) + TrailingOnes` (cavlc.py's
`coeff_token_8_quick` documents the same mapping). -/
def coeffTokenTable_8up : List ((Nat × Nat) × (Nat × Nat)) :=
  ((6, 3), (0, 0)) :: ((6, 0), (1, 0)) :: ((6, 1), (1, 1)) ::
    (((List.range 15).map (fun i =>
      (List.range (min (i + 2) 3 + 1)).map
        (fun t1 => ((6, 4 * (i + 1) + t1), (i + 2, t1))))).flatten)

/-- `coeff_token(stream, nC)` (cavlc.py lines 119-142): select the dictionary
by the `nC` range, then run the common loop with max length 16.  The
pseudo-nC −1/−2 chroma-DC dictionaries come from `coeff_token.txt`, which is
absent from src; the claims settled here never call with `nC < 0`, and that
branch is mapped to `unsupported`. -/
def coeff_token (nC : Int) (s : BStream) : Except PErr (Nat × Nat) × BStream :=
  if 0 ≤ nC ∧ nC < 2 then vlcScan coeffTokenTable_0_2 16 s
  else if 2 ≤ nC ∧ nC < 4 then vlcScan coeffTokenTable_2_4 16 s
  else if 4 ≤ nC ∧ nC < 8 then vlcScan coeffTokenTable_4_8 16 s
  else if 8 ≤ nC then vlcScan coeffTokenTable_8up 16 s
  else (.error .unsupported, s)

/-- The value of the `L` bits starting at the cursor of `s` (the `curr_val`
accumulated by the common loop after `L` successful reads). -/
def prefVal (s : BStream) : Nat → Nat
  | 0 => 0
  | l + 1 => prefVal s l * 2 + (if s.data.getD (s.pos + l) false then 1 else 0)

/-- Loop invariant for the no-match run of the common CAVLC loop: starting
`fuel` iterations before exhaustion with the accumulated prefix value, every
remaining lookup misses and every bit read succeeds, so the loop ends by
restoring the entry position and failing with `cavlcUnknownCode`. -/
theorem vlcLoop_no_match {α : Type} (table : List ((Nat × Nat) × α)) (maxLen : Nat)
    (d : List Bool) (p0 : Nat)
    (hroom : p0 + maxLen + 1 ≤ d.length)
    (hmiss : ∀ L, L ≤ maxLen + 1 → 1 ≤ L →
      table.lookup (L, prefVal ⟨d, p0⟩ L) = none) :
    ∀ fuel currLen, fuel + currLen = maxLen + 1 →
      vlcLoop table p0 fuel currLen (prefVal ⟨d, p0⟩ currLen) ⟨d, p0 + currLen⟩ =
        (.error .cavlcUnknownCode, ⟨d, p0⟩) := by
  intro fuel
  induction fuel with
  | zero =>
    intro currLen _
    rfl
  | succ fuel ih =>
    intro currLen hsum
    have hlt : p0 + currLen < d.length := by omega
    have hread : readBit ⟨d, p0 + currLen⟩ =
        .ok ((if d.getD (p0 + currLen) false then 1 else 0), ⟨d, p0 + currLen + 1⟩) := by
      simp only [readBit]
      rw [if_pos hlt]
    rw [vlcLoop, hread]
    have hv : prefVal ⟨d, p0⟩ (currLen + 1) =
        prefVal ⟨d, p0⟩ currLen * 2 + (if d.getD (p0 + currLen) false then 1 else 0) := rfl
    dsimp only
    rw [← hv, hmiss (currLen + 1) (by omega) (by omega)]
    exact ih (currLen + 1) (by omega)

/-- C7 (amended): when the common CAVLC loop (shared by `coeff_token`,
`parse_total_zeros` and `parse_run_before`) finds no matching code at any
length up to the table's maximum *and at least maxLen + 1 bits remain*, it
restores the cursor to its entry position and fails with `CavlcUnknownCode`.
(When exactly maxLen bits remain the loop attempts one further bit read,
which fails with `Truncated` and leaves the cursor advanced past the read
bits: see `C7_counterexample`.) -/
theorem C7_vlcScan_no_match_restores {α : Type} (table : List ((Nat × Nat) × α))
    (maxLen : Nat) (s : BStream)
    (hroom : s.pos + maxLen + 1 ≤ s.data.length)
    (hmiss : ∀ L, L ≤ maxLen + 1 → 1 ≤ L → table.lookup (L, prefVal s L) = none) :
    vlcScan table maxLen s = (.error .cavlcUnknownCode, s) := by
  have h := vlcLoop_no_match table maxLen s.data s.pos hroom hmiss (maxLen + 1) 0
    (by omega)
  exact h

/-- Witness for `C7_vlcScan_no_match_restores`: seventeen zero bits match no
code of the `0 <= nC < 2` coeff_token table (the all-zero string is not a
codeword at any length), so the scan restores position 0 and fails with
`CavlcUnknownCode`. -/
theorem C7_vlcScan_no_match_restores_witness :
    vlcScan coeffTokenTable_0_2 16 ⟨List.replicate 17 false, 0⟩ =
      (.error .cavlcUnknownCode, ⟨List.replicate 17 false, 0⟩) :=
  C7_vlcScan_no_match_restores coeffTokenTable_0_2 16 ⟨List.replicate 17 false, 0⟩
    (by decide) (by decide)

/-- C7 counterexample: on a stream whose remaining length is exactly the
maximum code length (16 zero bits, which match no coeff_token code), the
claim fails: the loop `while curr_len <= 16` attempts a seventeenth bit read,
which raises bitstring's read error (`Truncated`), the saved position is
never restored, and the cursor is left advanced by 16 bits. -/
theorem C7_counterexample :
    coeff_token 0 ⟨List.replicate 16 false, 0⟩ =
      (.error .truncated, ⟨List.replicate 16 false, 16⟩) ∧
      (coeff_token 0 ⟨List.replicate 16 false, 0⟩).1 ≠ .error .cavlcUnknownCode ∧
      (coeff_token 0 ⟨List.replicate 16 false, 0⟩).2 ≠ ⟨List.replicate 16 false, 0⟩ := by
  refine ⟨by decide, by decide, by decide⟩

/-- The maxNumCoeff = 4 (chroma DC, 4:2:0) total_zeros dictionary, keyed
`(code_len, code_val, tzVlcIndex)`.  Modelled from the spec: the live table
is read from `total_zeros_4_8.txt`, absent from src; the spec identifies it
as the standard's chroma-DC total_zeros table ("total_zeros for 4x4 and
chroma 2x2", max code length 3), i.e. codes `1`, `01`, `001`, `000` for
tzVlcIndex 1; `1`, `01`, `00` for index 2; `1`, `0` for index 3. -/
def totalZerosTable4 : List ((Nat × Nat × Nat) × Nat) :=
  [((1, 1, 1), 0), ((2, 1, 1), 1), ((3, 1, 1), 2), ((3, 0, 1), 3),
   ((1, 1, 2), 0), ((2, 1, 2), 1), ((2, 0, 2), 2),
   ((1, 1, 3), 0), ((1, 0, 3), 1)]

/-- Restriction of `totalZerosTable4` to one tzVlcIndex, currying the
dictionary key `(len, val, idx)` into the `(len, val)` key the common loop
uses. -/
def tz4Sub (idx : Nat) : List ((Nat × Nat) × Nat) :=
  totalZerosTable4.filterMap (fun e =>
    if e.1.2.2 = idx then some ((e.1.1, e.1.2.1), e.2) else none)

/-- The `maxNumCoeff == 4` branch of `parse_total_zeros` (cavlc.py lines
178-199): the common loop over the chroma-DC table with max length 3. -/
def parse_total_zeros4 (s : BStream) (tzVlcIndex : Nat) : Except PErr Nat × BStream :=
  vlcScan (tz4Sub tzVlcIndex) 3 s

/-- `ce3` as passed to the run-information step: `parse_total_zeros` selects
the chroma-DC table for maxNumCoeff 4 and fails with `Unsupported` for
maxNumCoeff 8 (4:2:2).  The general-case table comes from
`total_zeros_other.txt`, absent from src; the claims settled here only call
with maxNumCoeff 4, and that branch is mapped to `unsupported`. -/
def ce3_total_zeros (s : BStream) (maxNumCoeff tzVlcIndex : Nat) :
    Except PErr Nat × BStream :=
  if maxNumCoeff = 4 then parse_total_zeros4 s tzVlcIndex
  else (.error .unsupported, s)

/-- One zeros-left column of the run_before dictionary, keyed
`(code_len, code_val)`.  Modelled from the spec: the live table is read from
`run_before.txt`, absent from src; the spec identifies it as the standard's
Table 9-10 equivalent (`run_before` per zeros_left 1..6 and >= 7, max code
lengths 1..3 and 11). -/
def runBeforeCol : Nat → List ((Nat × Nat) × Nat)
  | 1 => [((1, 1), 0), ((1, 0), 1)]
  | 2 => [((1, 1), 0), ((2, 1), 1), ((2, 0), 2)]
  | 3 => [((2, 3), 0), ((2, 2), 1), ((2, 1), 2), ((2, 0), 3)]
  | 4 => [((2, 3), 0), ((2, 2), 1), ((2, 1), 2), ((3, 1), 3), ((3, 0), 4)]
  | 5 => [((2, 3), 0), ((2, 2), 1), ((3, 3), 2), ((3, 2), 3), ((3, 1), 4), ((3, 0), 5)]
  | 6 => [((2, 3), 0), ((3, 0), 1), ((3, 1), 2), ((3, 3), 3), ((3, 2), 4),
          ((3, 5), 5), ((3, 4), 6)]
  | 7 => [((3, 7), 0), ((3, 6), 1), ((3, 5), 2), ((3, 4), 3), ((3, 3), 4),
          ((3, 2), 5), ((3, 1), 6), ((4, 1), 7), ((5, 1), 8), ((6, 1), 9),
          ((7, 1), 10), ((8, 1), 11), ((9, 1), 12), ((10, 1), 13), ((11, 1), 14)]
  | _ => []

/-- `parse_run_before(s, zerosLeft)` (cavlc.py lines 222-240): zeros-left
above 6 selects the last column with max length 11; otherwise the column for
`zerosLeft` with max length 2 (`zerosLeft <= 3`) or 3. -/
def parse_run_before (s : BStream) (zerosLeft : Int) : Except PErr Nat × BStream :=
  if zerosLeft > 6 then vlcScan (runBeforeCol 7) 11 s
  else vlcScan (runBeforeCol zerosLeft.toNat) (if zerosLeft ≤ 3 then 2 else 3) s

/-- The per-index loop of the run-information step (nalutypes.py lines
1250-1257), carried out exactly as written, with the remaining iteration
count (`totalCoeff - 1` at entry, the length of `range(totalCoeff - 1)`) as
structural fuel: when `zerosLeft > 0 and i >= totalCoeff - min(totalCoeff,
4)` a run_before code is decoded and *subtracted* from `runVal[i]` (which is
0, so `runVal[i]` becomes the negated value) with `zerosLeft` untouched;
otherwise `runVal[i] = 0` and then `zerosLeft -= runVal[i]` (a no-op, since
`runVal[i]` was just zeroed).  After the loop, `runVal[totalCoeff - 1] =
zerosLeft`. -/
def runLoop (ce4 : BStream → Int → Except PErr Nat × BStream) (totalCoeff : Nat) :
    Nat → Nat → List Int → Int → BStream → Except PErr (List Int × Int) × BStream
  | 0, _, runVal, zerosLeft, s =>
    (.ok (runVal.set (totalCoeff - 1) zerosLeft, zerosLeft), s)
  | fuel + 1, i, runVal, zerosLeft, s =>
    if zerosLeft > 0 ∧ i ≥ totalCoeff - min totalCoeff 4 then
      match ce4 s zerosLeft with
      | (.error e, s') => (.error e, s')
      | (.ok r, s') =>
        runLoop ce4 totalCoeff fuel (i + 1)
          (runVal.set i (runVal.getD i 0 - (r : Int))) zerosLeft s'
    else
      let runVal2 := runVal.set i 0
      runLoop ce4 totalCoeff fuel (i + 1) runVal2 (zerosLeft - runVal2.getD i 0) s

/-- The run-information step of `residual_block_cavlc` (nalutypes.py lines
1243-1257): initialise `runVal` to zeros; decode total_zeros into `zerosLeft`
when `totalCoeff < endIdx - startIdx + 1`, else set it to 0; run the
per-index loop; finally set `runVal[totalCoeff - 1] = zerosLeft`.  The
total_zeros and run_before sub-decoders (`self.ce3`, `self.ce4`) are passed
in as functions. -/
def run_info (ce3 : BStream → Nat → Nat → Except PErr Nat × BStream)
    (ce4 : BStream → Int → Except PErr Nat × BStream)
    (totalCoeff : Nat) (startIdx endIdx : Int) (maxNumCoeff : Nat) (s : BStream) :
    Except PErr (List Int × Int) × BStream :=
  let runVal : List Int := List.replicate totalCoeff 0
  match (if (totalCoeff : Int) < endIdx - startIdx + 1
         then ce3 s maxNumCoeff totalCoeff
         else (.ok 0, s)) with
  | (.error e, s') => (.error e, s')
  | (.ok tz, s') => runLoop ce4 totalCoeff (totalCoeff - 1) 0 runVal (tz : Int) s'

/-- C2: evaluating the embedded run-information step at the ChromaDC-style
call `(totalCoeff = 2, startIdx = 0, endIdx = 3, maxNumCoeff = 4)` on the
bits `010`: total_zeros decodes `01` to 1 (so zerosLeft = 1), then for i = 0
the run_before code `0` decodes to 1 but the code stores `runVal[0] = -1`
(negated) and leaves zerosLeft at 1, and finally `runVal[1] = zerosLeft = 1`.
The claim requires `runVal = [1, 0]` with zerosLeft decreased to 0; the code
produces `runVal = [-1, 1]` with zerosLeft still 1. -/
theorem C2_run_info_eval :
    run_info ce3_total_zeros parse_run_before 2 0 3 4 ⟨[false, true, false], 0⟩ =
      (.ok ([-1, 1], 1), ⟨[false, true, false], 3⟩) ∧
      (run_info ce3_total_zeros parse_run_before 2 0 3 4
        ⟨[false, true, false], 0⟩).1 ≠ .ok ([1, 0], 0) := by
  refine ⟨by decide, by decide⟩

/-- The five normalised slice types a VCL slice header can carry
(`_get_slice_type` in nalu_utils.py). -/
inductive SliceType where
  | I
  | SI
  | P
  | SP
  | B
  deriving DecidableEq, Repr

/-- `SI_LEN` from macroblock.py. -/
def SI_LEN : Nat := 1

/-- `SI_START` from macroblock.py. -/
def SI_START : Nat := 26

/-- `P_SP_LEN` from macroblock.py. -/
def P_SP_LEN : Nat := 5

/-- `P_SP_START` from macroblock.py. -/
def P_SP_START : Nat := 27

/-- `B_LEN` from macroblock.py. -/
def B_LEN : Nat := 23

/-- `B_START` from macroblock.py. -/
def B_START : Nat := 33

/-- `MacroBlock.get_real_mb_type` (macroblock.py lines 385-396): normalise a
coded `mb_type` by slice type into the shared table domain. -/
def get_real_mb_type (st : SliceType) (mbType : Nat) : Nat :=
  match st with
  | .I => mbType
  | .SI => if mbType < SI_LEN then mbType + SI_START else mbType - SI_LEN
  | .P => if mbType < P_SP_LEN then mbType + P_SP_START else mbType - P_SP_LEN
  | .SP => if mbType < P_SP_LEN then mbType + P_SP_START else mbType - P_SP_LEN
  | .B => if mbType < B_LEN then mbType + B_START else mbType - B_LEN

/-- `MacroBlock.get_mb_type_clear` (macroblock.py lines 398-409), applied to
`self.mb_type`: the coarse type returned by comparing the stored mb_type
against `SI_LEN` / `P_SP_LEN` / `B_LEN`. -/
def get_mb_type_clear (st : SliceType) (mbType : Nat) : String :=
  match st with
  | .I => "I"
  | .SI => if mbType < SI_LEN then "SI" else "I"
  | .P => if mbType < P_SP_LEN then "P" else "I"
  | .SP => if mbType < P_SP_LEN then "P" else "I"
  | .B => if mbType < B_LEN then "B" else "I"

/-- The coarse type `mb_type_clear` a `MacroBlock` ends up with when
constructed from a coded `mb_type` (macroblock.py `__init__` lines 281-291):
`self.mb_type = get_real_mb_type(mb_type)` and then, only when that stored
value is truthy (non-zero), `self.mb_type_clear = get_mb_type_clear()`;
otherwise `mb_type_clear` stays `None`. -/
def mb_type_clear_of_coded (st : SliceType) (coded : Nat) : Option String :=
  let real := get_real_mb_type st coded
  if real ≠ 0 then some (get_mb_type_clear st real) else none

/-- C4: under a P slice, the coded mb_type 0 (P_L0_16x16) and 3 (P_8x8)
normalise to 27 and 30, which `get_mb_type_clear` compares against
`P_SP_LEN = 5` and classifies as I, not P; coded 5 (I_NxN) normalises to 0,
which is falsy, so the coarse type stays None; coded 6 yields coarse type P
although it is an I macroblock.  Under a B slice, coded 0 (B_Direct_16x16)
yields I and coded 23 (I_NxN) yields None.  The claim (coded 0..4 are P,
5 and above are I; B analogous) fails on every one of these. -/
theorem C4_mb_type_clear_eval :
    mb_type_clear_of_coded .P 0 = some "I" ∧
      mb_type_clear_of_coded .P 3 = some "I" ∧
      mb_type_clear_of_coded .P 5 = none ∧
      mb_type_clear_of_coded .P 6 = some "P" ∧
      mb_type_clear_of_coded .B 0 = some "I" ∧
      mb_type_clear_of_coded .B 23 = none := by
  refine ⟨rfl, rfl, rfl, rfl, rfl, rfl⟩

/-- `MacroBlock.get_coded_block_pattern` (macroblock.py lines 360-366): a
falsy (`None` or 0) `coded_block_pattern` yields `(0, 0)`; otherwise the pair
`(CodedBlockPatternChroma, CodedBlockPatternLuma)` — Chroma first — with
`Luma = cbp % 16` and `Chroma = cbp // 16` (Equation 7-35). -/
def get_coded_block_pattern (cbp : Nat) : Nat × Nat :=
  if cbp = 0 then (0, 0) else (cbp / 16, cbp % 16)

/-- The local pair `(CodedBlockPatternLuma, CodedBlockPatternChroma)` bound
in `macroblock_layer` (nalutypes.py line 897) and in `residual_luma`
(nalutypes.py line 1157): the tuple returned by `get_coded_block_pattern` —
whose components are `(Chroma, Luma)` — is unpacked positionally into names
in the opposite order, so the local named Luma holds `cbp // 16` and the
local named Chroma holds `cbp % 16`. -/
def macroblock_layer_cbp_locals (cbp : Nat) : Nat × Nat :=
  get_coded_block_pattern cbp

/-- The gate of nalutypes.py lines 898-901 for reading the second
`transform_size_8x8_flag`: the local `CodedBlockPatternLuma > 0` conjoined
with `pps.transform_8x8_mode_flag`, `mb_type != I_NxN`,
`noSubMbPartSizeLessThan8x8Flag`, and the B_Direct_16x16 /
`direct_8x8_inference_flag` condition (the last four passed here as context
booleans). -/
def second_transform_flag_gate (cbp : Nat) (transform8x8ModeFlag : Bool)
    (mbTypeIsINxN : Bool) (noSubMbPartSizeLessThan8x8Flag : Bool)
    (directOk : Bool) : Bool :=
  decide (0 < (macroblock_layer_cbp_locals cbp).1) && transform8x8ModeFlag &&
    !mbTypeIsINxN && noSubMbPartSizeLessThan8x8Flag && directOk

/-- The gate of nalutypes.py line 904 for reading `mb_qp_delta` and calling
`residual`: local Luma > 0, or local Chroma > 0, or Intra_16x16. -/
def mb_qp_delta_gate (cbp : Nat) (isIntra16x16 : Bool) : Bool :=
  decide (0 < (macroblock_layer_cbp_locals cbp).1) ||
    decide (0 < (macroblock_layer_cbp_locals cbp).2) || isIntra16x16

/-- The gate of nalutypes.py line 1165 for decoding the luma 4x4 blocks of
the 8x8 group `i8x8` in `residual_luma`: local `CodedBlockPatternLuma &
(1 << i8x8)`. -/
def residual_luma_block_gate (cbp : Nat) (i8x8 : Nat) : Bool :=
  decide (Nat.land (macroblock_layer_cbp_locals cbp).1 (Nat.shiftLeft 1 i8x8) ≠ 0)

/-- C3: the `macroblock_layer` locals are swapped.  `get_coded_block_pattern`
itself derives Luma = cbp % 16 and Chroma = cbp // 16 and returns them
Chroma-first, but line 897 unpacks them Luma-first, so for cbp = 16 (luma
mask 0, chroma 1) the local CodedBlockPatternLuma is 1 and the gates behave
accordingly: the second transform_size_8x8_flag is read (gate true) although
`cbp % 16 = 0`, while for cbp = 15 (luma mask 15) it is not read (gate
false); `residual_luma` likewise decodes the luma blocks of group 0 for
cbp = 16 and skips them for cbp = 15. -/
theorem C3_cbp_locals_swapped :
    get_coded_block_pattern 16 = (16 / 16, 16 % 16) ∧
      macroblock_layer_cbp_locals 16 = (1, 0) ∧ 16 % 16 = 0 ∧
      second_transform_flag_gate 16 true false true true = true ∧
      second_transform_flag_gate 15 true false true true = false ∧ 15 % 16 = 15 ∧
      residual_luma_block_gate 16 0 = true ∧
      residual_luma_block_gate 15 0 = false ∧
      mb_qp_delta_gate 16 false = true := by
  refine ⟨rfl, rfl, rfl, by decide, by decide, rfl, by decide, by decide, by decide⟩

/-- Python slice `data[a:b]` for byte sequences with non-negative bounds:
drop `a`, then take `b - a` (out-of-range bounds clamp, as in Python). -/
def pySlice (l : List Nat) (a b : Nat) : List Nat := (l.drop a).take (b - a)

/-- One entry of `ex.nalu_pos` as consumed by `process_file`
(crypt/crypter.py line 24): `(start, end, is4bytes, fb, nri, nalu_type)`.
The inclusive end offset is named `stop` here because `end` is reserved. -/
structure NaluRange where
  start : Nat
  stop : Nat
  is4bytes : Nat
  fb : Nat
  nri : Nat
  ty : Nat
  deriving DecidableEq, Repr

/-- The loop of `process_file` (crypt/crypter.py lines 22-34): `preEnd` is
the Python `pre_end` (initially -1); for each range, bytes
`data[pre_end+1:start]` are copied when `start != pre_end + 1`, then the
callback's output for `data[start:end+1]` is appended; after the loop the
tail `data[pre_end+1:]` is copied when `pre_end != len(data) - 1`. -/
def pfLoop (data : List Nat) (f : List Nat → Nat → Nat → Nat → List Nat) :
    List NaluRange → Int → List Nat → List Nat
  | [], preEnd, res =>
    if preEnd ≠ (data.length : Int) - 1 then res ++ data.drop (preEnd + 1).toNat
    else res
  | r :: rest, preEnd, res =>
    let res1 := if (r.start : Int) ≠ preEnd + 1
      then res ++ pySlice data (preEnd + 1).toNat r.start else res
    let res2 := res1 ++ f (pySlice data r.start (r.stop + 1)) r.fb r.nri r.ty
    pfLoop data f rest (r.stop : Int) res2

/-- `process_file(in_file, out_file, func)` (crypt/crypter.py lines 13-36),
with the NALU ranges delivered by the framer (`ex.nalu_pos`) taken as a
parameter and file I/O elided: returns the reassembled byte sequence. -/
def process_file (data : List Nat) (ranges : List NaluRange)
    (f : List Nat → Nat → Nat → Nat → List Nat) : List Nat :=
  pfLoop data f ranges (-1) []

/-- Well-formedness of a NALU range list relative to a cursor `preEnd`:
each range starts at or after `preEnd + 1`, is non-empty (`start <= stop`),
ends inside the data, and the ranges are sorted and non-overlapping.  This is
what the claim assumes of the framer output ("sorted, non-overlapping list of
NALU ranges covering it"). -/
def rangesWFb (len : Nat) : Int → List NaluRange → Bool
  | preEnd, [] => decide (preEnd + 1 ≤ (len : Int))
  | preEnd, r :: rest =>
    decide (preEnd + 1 ≤ (r.start : Int)) && decide (r.start ≤ r.stop) &&
      decide (r.stop < len) && rangesWFb len (r.stop : Int) rest

theorem pySlice_append (l : List Nat) (a b c : Nat) (hab : a ≤ b) (hbc : b ≤ c) :
    pySlice l a b ++ pySlice l b c = pySlice l a c := by
  unfold pySlice
  have hd : l.drop b = (l.drop a).drop (b - a) := by
    rw [List.drop_drop]
    congr 1
    omega
  rw [hd, ← List.take_add]
  congr 1
  omega

theorem pySlice_append_drop (l : List Nat) (a c : Nat) (hac : a ≤ c) :
    pySlice l a c ++ l.drop c = l.drop a := by
  unfold pySlice
  have hd : l.drop c = (l.drop a).drop (c - a) := by
    rw [List.drop_drop]
    congr 1
    omega
  rw [hd]
  exact List.take_append_drop (c - a) (l.drop a)

/-- With the identity callback, the `process_file` loop appends exactly the
bytes of `data` from `preEnd + 1` on, for any well-formed remaining range
list. -/
theorem pfLoop_identity (data : List Nat) :
    ∀ (ranges : List NaluRange) (preEnd : Int) (res : List Nat), -1 ≤ preEnd →
      rangesWFb data.length preEnd ranges = true →
      pfLoop data (fun x _ _ _ => x) ranges preEnd res =
        res ++ data.drop (preEnd + 1).toNat := by
  intro ranges
  induction ranges with
  | nil =>
    intro preEnd res hge hw
    simp only [rangesWFb, decide_eq_true_eq] at hw
    rw [pfLoop]
    by_cases hend : preEnd = (data.length : Int) - 1
    · rw [if_neg (by omega)]
      have : (preEnd + 1).toNat = data.length := by omega
      rw [this, List.drop_length, List.append_nil]
    · rw [if_pos hend]
  | cons r rest ih =>
    intro preEnd res hge hw
    simp only [rangesWFb, Bool.and_eq_true, decide_eq_true_eq] at hw
    obtain ⟨⟨⟨h1, h2⟩, h3⟩, h4⟩ := hw
    rw [pfLoop]
    have hres1 : (if (r.start : Int) ≠ preEnd + 1
        then res ++ pySlice data (preEnd + 1).toNat r.start else res) =
        res ++ pySlice data (preEnd + 1).toNat r.start := by
      by_cases hs : (r.start : Int) = preEnd + 1
      · rw [if_neg (by omega)]
        have hz : r.start - (preEnd + 1).toNat = 0 := by omega
        unfold pySlice
        rw [hz, List.take_zero, List.append_nil]
      · rw [if_pos hs]
    rw [hres1]
    rw [ih (r.stop : Int) _ (by omega) h4]
    have hcast : ((r.stop : Int) + 1).toNat = r.stop + 1 := by omega
    rw [hcast, List.append_assoc, List.append_assoc]
    congr 1
    rw [← List.append_assoc]
    have ha : (preEnd + 1).toNat ≤ r.start := by omega
    rw [pySlice_append data (preEnd + 1).toNat r.start (r.stop + 1) ha (by omega)]
    exact pySlice_append_drop data (preEnd + 1).toNat (r.stop + 1) (by omega)

/-- C9: for every byte sequence and every sorted, non-overlapping, in-bounds
NALU range list, `process_file` with the identity callback reproduces the
input byte-for-byte: prologue, inter-NALU and trailing bytes are copied
verbatim and each payload comes back from the callback unchanged. -/
theorem C9_process_file_identity (data : List Nat) (ranges : List NaluRange)
    (hw : rangesWFb data.length (-1) ranges = true) :
    process_file data ranges (fun x _ _ _ => x) = data := by
  have h := pfLoop_identity data ranges (-1) [] (by omega) hw
  unfold process_file
  rw [h]
  simp

/-- Witness for `C9_process_file_identity`: a five-byte stream with one NALU
occupying bytes 2..3 (two prologue bytes before it, one trailing byte after
it) is reproduced exactly. -/
theorem C9_process_file_identity_witness :
    rangesWFb (([9, 9, 1, 2, 3] : List Nat)).length (-1)
        [⟨2, 3, 0, 0, 1, 5⟩] = true ∧
      process_file [9, 9, 1, 2, 3] [⟨2, 3, 0, 0, 1, 5⟩] (fun x _ _ _ => x) =
        [9, 9, 1, 2, 3] :=
  ⟨by decide, C9_process_file_identity [9, 9, 1, 2, 3] [⟨2, 3, 0, 0, 1, 5⟩] (by decide)⟩
